import Mathlib

/-!
Verification of the ETL orchestration pipeline of the
"Automated Data Catalog & ETL" application.

The development shallowly embeds the pipeline's source files:
 - `services/dataProcessingService.ts` (`parseData`)
 - `services/geminiService.ts` (`parseJsonFromMarkdown`,
   `analyzeSchemaWithGemini`, `generateSqlSchemaWithGemini`)
 - `services/pgliteService.ts` (`initializePGLite`, `executeSql`,
   `batchInsertData`, `queryTableData`, `closePGLite`)
 - `App.tsx` (the pipeline state machine: `addLog`, `resetState`,
   `handleFileUpload`, `handleGenerateSql`, `handleProcessWithPGLite`,
   and the startup credential check)

TypeScript strings are modelled as `String` / `List Char`; JavaScript
JSON values as the inductive `Json`.  External collaborators (the JSON
built-ins, the PGlite engine, the LLM endpoint) enter through small,
explicitly documented models or through oracle parameters.
-/

set_option linter.unusedVariables false
set_option maxHeartbeats 1000000

namespace ETL

/-! ### Character utilities

TypeScript's `String.prototype.trim` and the regular expressions used by
the source are modelled over `List Char`.  `isWsChar` models the `\s`
character class restricted to the ASCII whitespace actually occurring in
the texts handled by the pipeline. -/

def isWsChar (c : Char) : Bool := c = ' ' || c = '\t' || c = '\n' || c = '\r'

def skipWs (cs : List Char) : List Char := cs.dropWhile isWsChar

def trimLeftChars (cs : List Char) : List Char := cs.dropWhile isWsChar

def trimRightChars (cs : List Char) : List Char :=
  (cs.reverse.dropWhile isWsChar).reverse

/-- Model of `text.trim()`. -/
def trimChars (cs : List Char) : List Char := trimRightChars (trimLeftChars cs)

/-! ### JSON values

Model of the JavaScript values produced by `JSON.parse` /
consumed by `JSON.stringify`.  Numbers are modelled as integers (the
pipeline's round-trip claims only involve strings, arrays and objects;
floating point is out of scope). -/

inductive Json where
  | null : Json
  | bool (b : Bool) : Json
  | num (n : Int) : Json
  | str (s : String) : Json
  | arr (items : List Json) : Json
  | obj (pairs : List (String × Json)) : Json
deriving Repr, Inhabited

/-! `numFree j` holds when no numeric literal occurs in `j`; the encoded
`ColumnAnalysis` values of the round-trip claim are number-free. -/
mutual
def Json.numFree : Json → Bool
  | .null => true
  | .bool _ => true
  | .num _ => false
  | .str _ => true
  | .arr xs => Json.numFreeList xs
  | .obj kvs => Json.numFreeMembers kvs

def Json.numFreeList : List Json → Bool
  | [] => true
  | x :: xs => x.numFree && Json.numFreeList xs

def Json.numFreeMembers : List (String × Json) → Bool
  | [] => true
  | (_, v) :: kvs => v.numFree && Json.numFreeMembers kvs
end

/-! ### JSON serialization (model of `JSON.stringify`, compact form) -/

/-- Escaping of one character inside a JSON string literal, as
`JSON.stringify` performs it for the quote, backslash and the common
control characters. -/
def escChar (c : Char) : List Char :=
  if c = '"' then ['\\', '"']
  else if c = '\\' then ['\\', '\\']
  else if c = '\n' then ['\\', 'n']
  else if c = '\t' then ['\\', 't']
  else if c = '\r' then ['\\', 'r']
  else [c]

def escList : List Char → List Char
  | [] => []
  | c :: cs => escChar c ++ escList cs

/-- A JSON string literal: `"…"` with the body escaped. -/
def strLitChars (s : String) : List Char := '"' :: (escList s.toList ++ ['"'])

/-- The characters of the `null` keyword. -/
def litNull : List Char := ['n', 'u', 'l', 'l']

/-- The characters of the `true` keyword. -/
def litTrue : List Char := ['t', 'r', 'u', 'e']

/-- The characters of the `false` keyword. -/
def litFalse : List Char := ['f', 'a', 'l', 's', 'e']

mutual
def renderJ : Json → List Char
  | Json.null => litNull
  | Json.bool true => litTrue
  | Json.bool false => litFalse
  | Json.num n => (toString n).toList
  | Json.str s => strLitChars s
  | Json.arr xs => '[' :: (renderElems xs ++ [']'])
  | Json.obj kvs => '{' :: (renderMembers kvs ++ ['}'])

def renderElems : List Json → List Char
  | [] => []
  | [x] => renderJ x
  | x :: xs => renderJ x ++ ',' :: renderElems xs

def renderMembers : List (String × Json) → List Char
  | [] => []
  | [(k, v)] => strLitChars k ++ ':' :: renderJ v
  | (k, v) :: kvs => strLitChars k ++ ':' :: renderJ v ++ ',' :: renderMembers kvs
end

/-! ### JSON parsing (model of `JSON.parse`)

A fuel-indexed recursive-descent parser.  The model accepts the JSON
fragment produced by the serializer above (strings with the five escape
sequences of `escChar`, integer numerals, arrays, objects, literals) and
skips whitespace between tokens; `\u`-escapes and floating point
numerals are outside the model. -/

/-- Expect a literal run of characters. -/
def expectChars : List Char → List Char → Option (List Char)
  | [], cs => some cs
  | p :: ps, c :: cs => if c = p then expectChars ps cs else none
  | _ :: _, [] => none

def unescChar (c : Char) : Option Char :=
  if c = '"' then some '"'
  else if c = '\\' then some '\\'
  else if c = 'n' then some '\n'
  else if c = 't' then some '\t'
  else if c = 'r' then some '\r'
  else none

/-- Parse the body of a string literal after the opening quote, up to and
including the closing quote. -/
def parseStrBody : List Char → Option (List Char × List Char)
  | [] => none
  | c :: rest =>
    if c = '"' then some ([], rest)
    else if c = '\\' then
      match rest with
      | [] => none
      | e :: rest2 =>
        match unescChar e with
        | some u => (parseStrBody rest2).map (fun p => (u :: p.1, p.2))
        | none => none
    else (parseStrBody rest).map (fun p => (c :: p.1, p.2))

def digitVal (c : Char) : Nat := c.toNat - '0'.toNat

def parseDigits : List Char → Nat → (Nat × List Char)
  | [], acc => (acc, [])
  | c :: cs, acc =>
    if c.isDigit then parseDigits cs (acc * 10 + digitVal c) else (acc, c :: cs)

def parseNum : List Char → Option (Int × List Char)
  | '-' :: c :: cs =>
    if c.isDigit then
      let p := parseDigits cs (digitVal c)
      some (-(p.1 : Int), p.2)
    else none
  | c :: cs =>
    if c.isDigit then
      let p := parseDigits cs (digitVal c)
      some ((p.1 : Int), p.2)
    else none
  | [] => none

mutual
def parseVal : Nat → List Char → Option (Json × List Char)
  | 0, _ => none
  | fuel + 1, cs =>
    match skipWs cs with
    | 'n' :: cs1 => (expectChars ['u', 'l', 'l'] cs1).map (fun r => (Json.null, r))
    | 't' :: cs1 => (expectChars ['r', 'u', 'e'] cs1).map (fun r => (Json.bool true, r))
    | 'f' :: cs1 => (expectChars ['a', 'l', 's', 'e'] cs1).map (fun r => (Json.bool false, r))
    | '"' :: cs1 => (parseStrBody cs1).map (fun p => (Json.str (String.mk p.1), p.2))
    | '[' :: cs1 =>
      let cs2 := skipWs cs1
      if cs2.head? = some ']' then some (Json.arr [], cs2.tail)
      else (parseElems fuel cs2).map (fun p => (Json.arr p.1, p.2))
    | '{' :: cs1 =>
      let cs2 := skipWs cs1
      if cs2.head? = some '}' then some (Json.obj [], cs2.tail)
      else (parseMembers fuel cs2).map (fun p => (Json.obj p.1, p.2))
    | cs1 => (parseNum cs1).map (fun p => (Json.num p.1, p.2))

def parseElems : Nat → List Char → Option (List Json × List Char)
  | 0, _ => none
  | fuel + 1, cs =>
    match parseVal fuel cs with
    | none => none
    | some (x, r) =>
      match skipWs r with
      | ',' :: r2 => (parseElems fuel r2).map (fun p => (x :: p.1, p.2))
      | ']' :: r2 => some ([x], r2)
      | _ => none

def parseMembers : Nat → List Char → Option (List (String × Json) × List Char)
  | 0, _ => none
  | fuel + 1, cs =>
    match skipWs cs with
    | '"' :: cs1 =>
      match parseStrBody cs1 with
      | none => none
      | some (k, r) =>
        match skipWs r with
        | ':' :: r2 =>
          match parseVal fuel r2 with
          | none => none
          | some (v, r3) =>
            match skipWs r3 with
            | ',' :: r4 =>
              (parseMembers fuel r4).map (fun p => ((String.mk k, v) :: p.1, p.2))
            | '}' :: r4 => some ([(String.mk k, v)], r4)
            | _ => none
        | _ => none
    | _ => none
end

/-- Model of `JSON.parse` on a whole text: the parsed value with nothing
but whitespace left over, `none` on any error. -/
def parseJsonChars (cs : List Char) : Option Json :=
  match parseVal (cs.length + 1) cs with
  | some (j, r) => if skipWs r = [] then some j else none
  | none => none

/-! ### Markdown code-fence stripping (geminiService.ts)

`parseJsonFromMarkdown` applies the anchored regular expression
`^(three backticks)(\w*)?\s*\n?(.*?)\n?\s*(three backticks)$` (flag `s`)
to the trimmed text and, when it matches with a non-empty second group,
replaces the text by that group, trimmed.  The regular expression is
modelled deterministically below; `(\w*)?` and `\s*\n?` are greedy and
`(.*?)\n?\s*` splits the body from the maximal whitespace run before the
closing fence, which is exactly a right-trim of the enclosed body. -/

def isWordChar (c : Char) : Bool := c.isAlphanum || c = '_'

def backticks3 : List Char := ['`', '`', '`']

/-- Model of the fence regular expression of `parseJsonFromMarkdown`:
`some body` when the regex matches with non-empty group 2 (the body,
trimmed as the source does with `match[2].trim()`), `none` otherwise. -/
def fenceMatch (cs : List Char) : Option (List Char) :=
  if cs.take 3 = backticks3 then
    let r1 := (cs.drop 3).dropWhile isWordChar
    let r2 := r1.dropWhile isWsChar
    if 3 ≤ r2.length ∧ r2.drop (r2.length - 3) = backticks3 then
      let g2 := trimChars (r2.take (r2.length - 3))
      if g2 = [] then none else some g2
    else none
  else none

/-- Model of the fence regular expression of `generateSqlSchemaWithGemini`
(`^(three backticks)(sql)?\s*\n?(.*?)\n?\s*(three backticks)$`, flag `s`):
identical to `fenceMatch` except that the optional word after the opening
fence is the literal `sql`. -/
def fenceMatchSql (cs : List Char) : Option (List Char) :=
  if cs.take 3 = backticks3 then
    let r0 := cs.drop 3
    let r1 := if r0.take 3 = ['s', 'q', 'l'] then r0.drop 3 else r0
    let r2 := r1.dropWhile isWsChar
    if 3 ≤ r2.length ∧ r2.drop (r2.length - 3) = backticks3 then
      let g2 := trimChars (r2.take (r2.length - 3))
      if g2 = [] then none else some g2
    else none
  else none

/-- Model of `parseJsonFromMarkdown` (geminiService.ts): trim, strip an
optional Markdown code fence, `JSON.parse`; when that parse fails, retry
`JSON.parse` once on the raw untrimmed text; `none` when both fail. -/
def parseJsonFromMarkdown (text : String) : Option Json :=
  let cs := text.toList
  let trimmed := trimChars cs
  let jsonStr :=
    match fenceMatch trimmed with
    | some g2 => g2
    | none => trimmed
  match parseJsonChars jsonStr with
  | some j => some j
  | none => parseJsonChars cs

/-! ### Schema-inference and SQL-generation clients (geminiService.ts)

The LLM transport is an external collaborator: each client receives the
response as an oracle value `Option String` (`none` models a thrown
transport error, `some text` the response text).  `apiKeyPresent` models
`ai ≠ null`, i.e. whether the `GoogleGenAI` client was constructed. -/

structure AnalyzeResult where
  analysis : Option (List Json)
  error : Option String
deriving Repr

/-- The JavaScript-falsy JSON values: `null`, `false`, `0` and the empty
string.  The source tests `if (!parsedResult)`, so a parsed falsy value
is indistinguishable there from a parse failure (`parseJsonFromMarkdown`
returning `null`). -/
def Json.isFalsy : Json → Bool
  | Json.null => true
  | Json.bool false => true
  | Json.num 0 => true
  | Json.str "" => true
  | _ => false

/-- Model of `analyzeSchemaWithGemini` after the LLM call: guard on the
client, parse the response via `parseJsonFromMarkdown`; the source's
`if (!parsedResult)` (JavaScript truthiness) treats a parse failure and
a parsed falsy value alike as the parse-failure error; only then is the
value validated with `Array.isArray`. -/
def analyzeSchemaWithGemini (apiKeyPresent : Bool) (response : Option String) :
    AnalyzeResult :=
  if !apiKeyPresent then
    ⟨none, some "Gemini API client not initialized. API_KEY might be missing."⟩
  else
    match response with
    | none => ⟨none, some "Gemini API error: request failed"⟩
    | some text =>
      match parseJsonFromMarkdown text with
      | none => ⟨none, some "Failed to parse schema analysis from LLM response."⟩
      | some v =>
        if v.isFalsy then
          ⟨none, some "Failed to parse schema analysis from LLM response."⟩
        else
          match v with
          | Json.arr xs => ⟨some xs, none⟩
          | _ =>
            ⟨none, some "LLM response for schema analysis was not in the expected array format."⟩

structure SqlResult where
  sql : Option String
  error : Option String
deriving Repr, DecidableEq

/-- The candidate SQL text of `generateSqlSchemaWithGemini`: the response
trimmed, with an optional `sql` code fence stripped. -/
def sqlCandidate (text : String) : List Char :=
  let s0 := trimChars text.toList
  match fenceMatchSql s0 with
  | some g2 => g2
  | none => s0

/-- Model of `generateSqlSchemaWithGemini` after the LLM call: trim and
strip the fence, then accept exactly when the candidate starts
case-insensitively (via `toUpperCase`) with `CREATE TABLE`. -/
def generateSqlSchemaWithGemini (apiKeyPresent : Bool) (response : Option String) :
    SqlResult :=
  if !apiKeyPresent then
    ⟨none, some "Gemini API client not initialized. API_KEY might be missing."⟩
  else
    match response with
    | none => ⟨none, some "Gemini API error: request failed"⟩
    | some text =>
      let s1 := sqlCandidate text
      if List.isPrefixOf "CREATE TABLE".toList (s1.map Char.toUpper) then
        ⟨some (String.mk s1), none⟩
      else
        ⟨none, some ("LLM did not return a valid CREATE TABLE statement. Response: "
          ++ String.mk s1)⟩

/-! ### ColumnAnalysis and its JSON image (types.ts) -/

structure ColumnAnalysis where
  columnName : String
  inferredSqlType : String
  semanticType : String
  description : String
  qualityIssues : List String
deriving Repr, DecidableEq

/-- The JSON object `JSON.stringify` produces for one `ColumnAnalysis`
(the five fields the schema-inference prompt requests). -/
def encodeColumnAnalysis (c : ColumnAnalysis) : Json :=
  .obj [("columnName", .str c.columnName),
        ("inferredSqlType", .str c.inferredSqlType),
        ("semanticType", .str c.semanticType),
        ("description", .str c.description),
        ("qualityIssues", .arr (c.qualityIssues.map Json.str))]

def encodeColumns (cols : List ColumnAnalysis) : Json :=
  .arr (cols.map encodeColumnAnalysis)

/-- The fenced variant of a response text: the body wrapped in a Markdown
code fence with the `json` language tag. -/
def wrapJsonFence (s : String) : String := "```json\n" ++ s ++ "\n```"

/-! ### Data parser (dataProcessingService.ts)

`parseData` dispatches on the file extension; CSV parsing is delegated by
the source to the external PapaParse library with
`header: true, skipEmptyLines: true, dynamicTyping: true`, modelled here
over a plain (unquoted-field) CSV dialect; JSON parsing delegates to
`JSON.parse`, modelled by `parseJsonChars`. -/

/-- Splitting on a separator character (model of JavaScript
`String.prototype.split` with a one-character separator: the result is
never empty, and empty groups are kept). -/
def splitOnChar (sep : Char) : List Char → List (List Char)
  | [] => [[]]
  | c :: rest =>
    match splitOnChar sep rest with
    | [] => [[]]
    | grp :: grps => if c = sep then [] :: grp :: grps else (c :: grp) :: grps

def splitLines (content : String) : List String :=
  (splitOnChar '\n' content.toList).map String.mk

def splitFields (line : String) : List String :=
  (splitOnChar ',' line.toList).map String.mk

/-- Model of `fileName.split('.').pop()?.toLowerCase()`. -/
def fileExtension (fileName : String) : String :=
  String.mk (((splitOnChar '.' fileName.toList).getLastD []).map Char.toLower)

def natOfDigits (cs : List Char) : Nat := cs.foldl (fun a c => a * 10 + digitVal c) 0

/-- Model of PapaParse `dynamicTyping: true` field coercion: booleans and
integer numerals are converted, the empty field becomes null, anything
else stays text (decimal/exponent forms of the external library are not
modelled; no verified property depends on them). -/
def dynamicType (s : String) : Json :=
  if s = "" then Json.null
  else if s = "true" then Json.bool true
  else if s = "false" then Json.bool false
  else
    match s.toList with
    | '-' :: rest =>
      if rest ≠ [] && rest.all Char.isDigit then Json.num (-(natOfDigits rest : Int))
      else Json.str s
    | cs =>
      if cs ≠ [] && cs.all Char.isDigit then Json.num (natOfDigits cs)
      else Json.str s

/-- Model of `Papa.parse` with `header: true, skipEmptyLines: true,
dynamicTyping: true`: the first line is the header defining the column
names; every non-empty later line becomes one row keyed by the header. -/
def parseCsvRows (content : String) : List Json :=
  match splitLines content with
  | [] => []
  | header :: dataLines =>
    let cols := splitFields header
    (dataLines.filter (fun l => l ≠ "")).map fun line =>
      Json.obj (List.zip cols ((splitFields line).map dynamicType))

/-- The key list of a row object (model of `Object.keys`). -/
def rowKeys : Json → List String
  | Json.obj kvs => kvs.map Prod.fst
  | _ => []

/-- Model of `parseData` (dataProcessingService.ts): dispatch on the
lower-cased file extension; `.csv` parses via PapaParse, `.json` via
`JSON.parse` (an array is the row list, any other value is wrapped as a
one-element list), anything else is an unsupported format error. -/
def parseData (fileName content : String) : Except String (List Json) :=
  let ext := fileExtension fileName
  if ext = "csv" then
    .ok (parseCsvRows content)
  else if ext = "json" then
    match parseJsonChars content.toList with
    | some (Json.arr xs) => .ok xs
    | some j => .ok [j]
    | none => .error "Invalid JSON format."
  else
    .error "Unsupported file type. Please use CSV or JSON."

/-! ### Catalog store (pgliteService.ts)

The PGlite engine is an external collaborator.  A `Conn` bundles the
module-level `currentDbName` with the connection's table contents (the
engine state reachable through `dbInstance`); `ServiceState.conn` is
`some` exactly when `dbInstance` is non-null.  Engine calls that can fail
are driven by Boolean/function oracles; `ConnEvent` records every
underlying `close()` / `new PGlite(...)` engine call in order. -/

structure Conn where
  dbName : String
  tables : List (String × List Json)
deriving Repr

structure ServiceState where
  conn : Option Conn
deriving Repr

inductive ConnEvent where
  | closed (dbName : String)
  | opened (dbName : String)
deriving Repr, DecidableEq

structure InitOutcome where
  success : Bool
  state : ServiceState
  events : List ConnEvent
deriving Repr

/-- Model of `initializePGLite` (pgliteService.ts lines 7-34): a repeated
request for the already-open database name succeeds without touching the
engine; otherwise the previous instance (if any) is closed first and only
then is the new one constructed.  `closeOk` models whether the old
instance's `close()` call succeeds, `newOk` whether `new PGlite` plus
`waitReady` succeeds; a thrown error in either is caught, nulls
`dbInstance`/`currentDbName` and reports failure. -/
def initializePGLite (closeOk newOk : Bool) (st : ServiceState) (dbName : String) :
    InitOutcome :=
  match st.conn with
  | some c =>
    if c.dbName = dbName then ⟨true, st, []⟩
    else
      if closeOk then
        if newOk then ⟨true, ⟨some ⟨dbName, []⟩⟩, [.closed c.dbName, .opened dbName]⟩
        else ⟨false, ⟨none⟩, [.closed c.dbName]⟩
      else ⟨false, ⟨none⟩, [.closed c.dbName]⟩
  | none =>
    if newOk then ⟨true, ⟨some ⟨dbName, []⟩⟩, [.opened dbName]⟩
    else ⟨false, ⟨none⟩, []⟩

/-- Model of `closePGLite` (lines 106-118): closes and nulls the module
state when an instance exists (any close error is swallowed, the state is
nulled in the `finally`); a no-op when already closed. -/
def closePGLite (st : ServiceState) : ServiceState × List ConnEvent :=
  match st.conn with
  | some c => (⟨none⟩, [.closed c.dbName])
  | none => (⟨none⟩, [])

def lookupTable (tables : List (String × List Json)) (name : String) :
    Option (List Json) :=
  match tables.find? (fun t => t.1 = name) with
  | some t => some t.2
  | none => none

def setTable (tables : List (String × List Json)) (name : String)
    (rows : List Json) : List (String × List Json) :=
  if (tables.find? (fun t => t.1 = name)).isSome then
    tables.map (fun t => if t.1 = name then (name, rows) else t)
  else tables ++ [(name, rows)]

/-- The rows of a table as observable through the store, empty when the
table or the connection does not exist. -/
def tableRows (st : ServiceState) (name : String) : List Json :=
  match st.conn with
  | some c => (lookupTable c.tables name).getD []
  | none => []

structure ExecOutcome where
  success : Bool
  error : Option String
deriving Repr, DecidableEq

/-- Model of `executeSql` (lines 36-49): requires an open connection; the
SQL engine itself is external, so its effect on the tables enters through
the oracle `sem`. -/
def executeSql (sem : String → List (String × List Json) →
      Except String (List (String × List Json)))
    (st : ServiceState) (sql : String) : ExecOutcome × ServiceState :=
  match st.conn with
  | none => (⟨false, some "PGLite not initialized."⟩, st)
  | some c =>
    match sem sql c.tables with
    | .ok tables2 => (⟨true, none⟩, ⟨some ⟨c.dbName, tables2⟩⟩)
    | .error e => (⟨false, some ("SQL execution error: " ++ e)⟩, st)

/-- Model of `row[col]` on a parsed row (JavaScript `undefined` for a
missing key is modelled as null, which is what the driver binds). -/
def lookupJson (row : Json) (col : String) : Json :=
  match row with
  | Json.obj kvs => ((kvs.find? (fun kv => kv.1 = col)).map (fun kv => kv.2)).getD Json.null
  | _ => Json.null

/-- The values clause of one parameterized insert: the row projected to
the column list taken from the batch's first row. -/
def projectRow (cols : List String) (row : Json) : Json :=
  Json.obj (cols.map (fun c => (c, lookupJson row c)))

/-- One `INSERT` of one row executed by the engine inside the
transaction: the target table must exist and the row must pass the
engine-side constraint check (oracle `rowOk`); an accepted row is
appended in the store's natural order.  Modelled from the external
engine's contract for `INSERT`. -/
def insertRowModel (rowOk : Json → Bool) (tableName : String) (cols : List String)
    (tables : List (String × List Json)) (row : Json) :
    Except String (List (String × List Json)) :=
  match lookupTable tables tableName with
  | none => .error "relation does not exist"
  | some rows =>
    if rowOk (projectRow cols row) then
      .ok (setTable tables tableName (rows ++ [projectRow cols row]))
    else .error "constraint violation"

/-- The `for (const row of data) await tx.query(...)` loop of
`batchInsertData`, on a draft table state; the second component counts
the insert statements actually executed. -/
def insertLoop (rowOk : Json → Bool) (tableName : String) (cols : List String) :
    List (String × List Json) → List Json →
      Except String (List (String × List Json)) × Nat
  | tables, [] => (.ok tables, 0)
  | tables, row :: rows =>
    match insertRowModel rowOk tableName cols tables row with
    | .ok tables2 =>
      let p := insertLoop rowOk tableName cols tables2 rows
      (p.1, p.2 + 1)
    | .error e => (.error e, 1)

structure InsertOutcome where
  success : Bool
  error : Option String
deriving Repr, DecidableEq

/-- Model of `batchInsertData` (lines 51-78): fail when not initialized;
return success immediately on empty input; otherwise take the column list
from the first row (`Object.keys(data[0])`) and run every insert inside a
single transaction — when the loop throws, the transaction rolls back and
the store keeps its pre-call state.  The third component counts the
statements executed against the engine (zero means the store was never
contacted). -/
def batchInsertData (rowOk : Json → Bool) (st : ServiceState) (tableName : String)
    (data : List Json) : InsertOutcome × ServiceState × Nat :=
  match st.conn with
  | none => (⟨false, some "PGLite not initialized."⟩, st, 0)
  | some c =>
    if data.length = 0 then (⟨true, none⟩, st, 0)
    else
      let cols := rowKeys (data.headD Json.null)
      match insertLoop rowOk tableName cols c.tables data with
      | (.ok tables2, n) => (⟨true, none⟩, ⟨some ⟨c.dbName, tables2⟩⟩, n)
      | (.error e, n) => (⟨false, some ("Batch insert error: " ++ e)⟩, st, n)

/-- Model of `queryTableData` (lines 81-101): requires an open
connection; returns at most `limit` rows of the (defensively quoted)
table in natural order. -/
def queryTableData (st : ServiceState) (tableName : String) (limit : Nat) :
    Option (List Json) × Option String :=
  match st.conn with
  | none => (none, some "PGLite not initialized.")
  | some c =>
    match lookupTable c.tables tableName with
    | some rows => (some (rows.take limit), none)
    | none => (none, some ("Failed to query table " ++ tableName))

/-- The number of live connections in a service state. -/
def connCount (st : ServiceState) : Nat :=
  match st.conn with
  | some _ => 1
  | none => 0

/-- Replaying connection events over a live-connection count. -/
def liveCount (init : Nat) : List ConnEvent → Nat
  | [] => init
  | .closed _ :: evs => liveCount (init - 1) evs
  | .opened _ :: evs => liveCount (init + 1) evs

/-! ### Pipeline orchestrator (App.tsx)

React state is modelled as a record; the sequential `set…` calls of one
handler become sequential field updates.  `Date.now()` /
`toLocaleTimeString()` read a pre-supplied clock stream (`clock`), one
entry per read.  The LLM responses and the engine outcomes are oracle
parameters, as in the service models.  `trace` accumulates every engine
open/close event of the run.  The `File` object's mime type and size are
not modelled, so log messages carry the file name only. -/

inductive AppStep where
  | Upload
  | AnalyzingSchema
  | ReviewSchema
  | GeneratingSql
  | ReviewSql
  | ProcessingDb
  | Done
  | Error
deriving Repr, DecidableEq

inductive LogType where
  | info
  | error
  | success
  | warning
deriving Repr, DecidableEq

structure EtlLogEntry where
  id : String
  timestamp : String
  message : String
  type : LogType
deriving Repr, DecidableEq

inductive PgStatus where
  | inactive
  | initializing
  | ready
  | error
deriving Repr, DecidableEq

structure AppState where
  currentStep : AppStep
  file : Option String
  rawDataPreview : Option (List Json)
  fullParsedData : Option (List Json)
  schemaAnalysis : Option (List Json)
  generatedCreateTableSql : Option String
  etlLogs : List EtlLogEntry
  globalError : Option String
  pgliteStatus : PgStatus
  currentDbName : Option String
  dbDataPreview : Option (List Json)
  service : ServiceState
  trace : List ConnEvent
  clock : List Nat
deriving Repr

/-- Modelled from the spec: `constants.ts` is not under src/; the exact
preview bound is not claim-relevant. -/
def MAX_PREVIEW_ROWS : Nat := 10

/-- Modelled from the spec: `constants.ts` is not under src/; the exact
session-name prefix is not claim-relevant. -/
def PGLITE_DB_NAME_PREFIX : String := "etl_db_"

/-- Model of `addLog`: one wall-clock read supplies both the entry id
(`Date.now().toString()`) and the displayed timestamp; the entry is
appended to the log. -/
def addLog (message : String) (type : LogType) (st : AppState) : AppState :=
  let t := st.clock.headD 0
  { st with
    clock := st.clock.tail,
    etlLogs := st.etlLogs ++ [⟨toString t, toString t, message, type⟩] }

/-- The pristine component state before the mount effect runs. -/
def initState (clock : List Nat) : AppState :=
  { currentStep := .Upload, file := none, rawDataPreview := none,
    fullParsedData := none, schemaAnalysis := none,
    generatedCreateTableSql := none, etlLogs := [], globalError := none,
    pgliteStatus := .inactive, currentDbName := none, dbDataPreview := none,
    service := ⟨none⟩, trace := [], clock := clock }

/-- Model of the startup `useEffect`: a missing API key is reported once,
the error message is set and the pipeline enters `Error`. -/
def startupEffect (apiKeyMissing : Bool) (st : AppState) : AppState :=
  if apiKeyMissing then
    let st1 := addLog
      "Critical: Gemini API Key (process.env.API_KEY) is missing. Most features will not work."
      .error st
    { st1 with
      globalError := some "Gemini API Key is not configured. Please set the process.env.API_KEY environment variable.",
      currentStep := .Error }
  else st

/-- Model of `resetState` (App.tsx lines 67-86): back to `Upload` (or
`Error` while the key is missing), discard all derived data, keep the
log history, clear the error only when the key precondition holds, close
the store connection when one was opened for this run, and log the
reset. -/
def resetState (apiKeyMissing : Bool) (st : AppState) : AppState :=
  let st1 := { st with
    currentStep := if apiKeyMissing then AppStep.Error else AppStep.Upload,
    file := none, rawDataPreview := none, fullParsedData := none,
    schemaAnalysis := none, generatedCreateTableSql := none,
    globalError := if apiKeyMissing then st.globalError else none,
    pgliteStatus := PgStatus.inactive }
  let st2 :=
    if st1.currentDbName.isSome then
      let p := closePGLite st1.service
      { st1 with service := p.1, trace := st1.trace ++ p.2 }
    else st1
  let st3 := { st2 with currentDbName := none, dbDataPreview := none }
  addLog "State reset. Ready for new file upload." .info st3

/-- Model of `handleFileUpload` (App.tsx lines 89-125): no-op when the
key is missing; otherwise reset, parse, guard against empty data, then
run schema inference (the LLM response is the oracle `llmResp`); any
failure is caught into `Error` with a message. -/
def handleFileUpload (apiKeyMissing : Bool) (fileName content : String)
    (llmResp : Option String) (st : AppState) : AppState :=
  if apiKeyMissing then st
  else
    let s1 := resetState apiKeyMissing st
    let s2 := addLog ("File \"" ++ fileName ++ "\" selected.") .info s1
    let s3 := { s2 with file := some fileName, currentStep := AppStep.AnalyzingSchema }
    match parseData fileName content with
    | .error e =>
      let s4 := addLog ("Error during file processing or schema analysis: " ++ e) .error s3
      { s4 with
        globalError := some ("Failed to process file or analyze schema: " ++ e),
        currentStep := AppStep.Error }
    | .ok parsed =>
      let s4 := { s3 with
        rawDataPreview := some (parsed.take MAX_PREVIEW_ROWS),
        fullParsedData := some parsed }
      let s5 := addLog ("Successfully parsed " ++ toString parsed.length
        ++ " rows from \"" ++ fileName ++ "\".") .info s4
      if parsed.length = 0 then
        let s6 := addLog "Uploaded file is empty or contains no data rows." .warning s5
        { s6 with
          globalError := some "Uploaded file contains no data.",
          currentStep := AppStep.Error }
      else
        let s6 := addLog "Starting schema analysis with Gemini..." .info s5
        let result := analyzeSchemaWithGemini true llmResp
        match result.analysis, result.error with
        | some analysis, none =>
          let s7 := { s6 with schemaAnalysis := some analysis }
          let s8 := addLog "Schema analysis complete." .success s7
          { s8 with currentStep := AppStep.ReviewSchema }
        | _, _ =>
          let e := result.error.getD "Schema analysis failed to return data."
          let s7 := addLog ("Error during file processing or schema analysis: " ++ e) .error s6
          { s7 with
            globalError := some ("Failed to process file or analyze schema: " ++ e),
            currentStep := AppStep.Error }

/-- Model of `handleGenerateSql` (App.tsx lines 127-145): no-op without a
confirmed schema, a file or the key; otherwise ask the LLM for the DDL
(the response is the oracle `llmResp`) and either advance to `ReviewSql`
or enter `Error`. -/
def handleGenerateSql (apiKeyMissing : Bool) (llmResp : Option String)
    (st : AppState) : AppState :=
  match st.schemaAnalysis, st.file with
  | some _, some _ =>
    if apiKeyMissing then st
    else
      let s1 := { st with currentStep := AppStep.GeneratingSql }
      let s2 := addLog "Generating SQL CREATE TABLE statement with Gemini..." .info s1
      let result := generateSqlSchemaWithGemini true llmResp
      match result.sql, result.error with
      | some sql, none =>
        let s3 := { s2 with generatedCreateTableSql := some sql }
        let s4 := addLog "SQL CREATE TABLE statement generated." .success s3
        { s4 with currentStep := AppStep.ReviewSql }
      | _, _ =>
        let e := result.error.getD "SQL generation failed to return data."
        let s3 := addLog ("Error generating SQL: " ++ e) .error s2
        { s3 with
          globalError := some ("Failed to generate SQL: " ++ e),
          currentStep := AppStep.Error }
  | _, _ => st

/-- Model of `file.name.split('.')[0].replace(/[^a-zA-Z0-9_]/g, '_') ||
'uploaded_data'`. -/
def sanitizeBaseName (fileName : String) : String :=
  let base := (splitOnChar '.' fileName.toList).headD []
  let s := base.map (fun c => if c.isAlphanum || c = '_' then c else '_')
  if s = [] then "uploaded_data" else String.mk s

/-- Case-insensitive literal prefix stripping (for the table-name
regular expression). -/
def stripCI : List Char → List Char → Option (List Char)
  | [], cs => some cs
  | p :: ps, c :: cs => if c.toUpper = p.toUpper then stripCI ps cs else none
  | _ :: _, [] => none

/-- One attempted match of `CREATE TABLE\s+"?([^"\s(]+)"?` at the head of
the text. -/
def tableNameAt (cs : List Char) : Option String :=
  match stripCI "CREATE TABLE".toList cs with
  | none => none
  | some r =>
    match r with
    | [] => none
    | c :: r2 =>
      if isWsChar c then
        let r3 := r2.dropWhile isWsChar
        let r4 := if r3.headD ' ' = '"' then r3.tail else r3
        let name := r4.takeWhile (fun ch => !(ch = '"' || isWsChar ch || ch = '('))
        if name = [] then none else some (String.mk name)
      else none

/-- Model of `generatedCreateTableSql.match(/CREATE TABLE\s+"?([^"\s(]+)"?/i)`:
the first position where the pattern matches. -/
def extractTableName : List Char → Option String
  | [] => none
  | c :: rest =>
    match tableNameAt (c :: rest) with
    | some n => some n
    | none => extractTableName rest

/-- The engine-side oracles of one `handleProcessWithPGLite` run. -/
structure ProcessOracle where
  closeOk : Bool
  newOk : Bool
  ddlSem : String → List (String × List Json) → Except String (List (String × List Json))
  rowOk : Json → Bool

/-- Model of `handleProcessWithPGLite` (App.tsx lines 147-204): no-op
without generated SQL, parsed data, a file or the key; otherwise open a
fresh session-named store, execute the DDL, bulk-insert inside one
transaction, fetch the preview (a preview failure only warns), and end in
`Done`; any step failure ends in `Error`.  Engine error text is
abstracted by the oracles. -/
def handleProcessWithPGLite (apiKeyMissing : Bool) (o : ProcessOracle)
    (st : AppState) : AppState :=
  match st.generatedCreateTableSql, st.fullParsedData, st.file with
  | some sql, some parsed, some fileName =>
    if apiKeyMissing then st
    else
      let s1 := { st with currentStep := AppStep.ProcessingDb }
      let s2 := addLog "Processing data with PGLite..." .info s1
      let t := s2.clock.headD 0
      let s3 := { s2 with clock := s2.clock.tail }
      let newDbName := PGLITE_DB_NAME_PREFIX ++ toString t
      let s4 := { s3 with currentDbName := some newDbName, pgliteStatus := PgStatus.initializing }
      let s5 := addLog ("Initializing PGLite database: " ++ newDbName ++ "...") .info s4
      let initRes := initializePGLite o.closeOk o.newOk s5.service newDbName
      let s6 := { s5 with service := initRes.state, trace := s5.trace ++ initRes.events }
      if initRes.success = false then
        let s7 := addLog "PGLite initialization failed." .error s6
        { s7 with
          globalError := some "PGLite failed: initialization error",
          pgliteStatus := PgStatus.error, currentStep := AppStep.Error }
      else
        let s7 := { s6 with pgliteStatus := PgStatus.ready }
        let s8 := addLog "PGLite initialized successfully." .success s7
        let tableName := (extractTableName sql.toList).getD (sanitizeBaseName fileName)
        let s9 := addLog ("Executing CREATE TABLE statement for table \""
          ++ tableName ++ "\"...") .info s8
        let execRes := executeSql o.ddlSem s9.service sql
        let s10 := { s9 with service := execRes.2 }
        if execRes.1.success = false then
          let s11 := addLog "Failed to create table." .error s10
          { s11 with
            globalError := some ("PGLite error: " ++ (execRes.1.error.getD "")),
            currentStep := AppStep.Error }
        else
          let s11 := addLog ("Table \"" ++ tableName ++ "\" created successfully.") .success s10
          let s12 := addLog ("Inserting " ++ toString parsed.length
            ++ " rows into \"" ++ tableName ++ "\"...") .info s11
          let insRes := batchInsertData o.rowOk s12.service tableName parsed
          let s13 := { s12 with service := insRes.2.1 }
          if insRes.1.success = false then
            let s14 := addLog "Failed to insert data." .error s13
            { s14 with
              globalError := some ("PGLite error: " ++ (insRes.1.error.getD "")),
              currentStep := AppStep.Error }
          else
            let s14 := addLog "Data insertion complete." .success s13
            let s15 := addLog ("Fetching preview from table \"" ++ tableName ++ "\"...") .info s14
            let q := queryTableData s15.service tableName MAX_PREVIEW_ROWS
            let s16 :=
              match q.1 with
              | some rows =>
                addLog "Successfully fetched preview." .success
                  { s15 with dbDataPreview := some rows }
              | none => addLog "Failed to fetch preview from DB." .warning s15
            let s17 := { s16 with currentStep := AppStep.Done }
            addLog "ETL process completed." .success s17
  | _, _, _ => st

/-- The reachable application states: the mount effect applied to the
pristine state, closed under the user-triggerable transitions. -/
inductive Reachable (apiKeyMissing : Bool) : AppState → Prop where
  | init (clock : List Nat) :
      Reachable apiKeyMissing (startupEffect apiKeyMissing (initState clock))
  | upload {st : AppState} (fileName content : String) (llmResp : Option String) :
      Reachable apiKeyMissing st →
      Reachable apiKeyMissing (handleFileUpload apiKeyMissing fileName content llmResp st)
  | genSql {st : AppState} (llmResp : Option String) :
      Reachable apiKeyMissing st →
      Reachable apiKeyMissing (handleGenerateSql apiKeyMissing llmResp st)
  | processDb {st : AppState} (o : ProcessOracle) :
      Reachable apiKeyMissing st →
      Reachable apiKeyMissing (handleProcessWithPGLite apiKeyMissing o st)
  | reset {st : AppState} :
      Reachable apiKeyMissing st →
      Reachable apiKeyMissing (resetState apiKeyMissing st)

/-! ## Theorems -/

/-! ### Round-trip: the parser inverts the serializer -/

@[simp] theorem isWsChar_n : isWsChar 'n' = false := by decide

@[simp] theorem isWsChar_t : isWsChar 't' = false := by decide

@[simp] theorem isWsChar_f : isWsChar 'f' = false := by decide

@[simp] theorem isWsChar_quote : isWsChar '"' = false := by decide

@[simp] theorem isWsChar_lbrack : isWsChar '[' = false := by decide

@[simp] theorem isWsChar_rbrack : isWsChar ']' = false := by decide

@[simp] theorem isWsChar_lbrace : isWsChar '{' = false := by decide

@[simp] theorem isWsChar_rbrace : isWsChar '}' = false := by decide

@[simp] theorem isWsChar_comma : isWsChar ',' = false := by decide

@[simp] theorem isWsChar_colon : isWsChar ':' = false := by decide

theorem strMk_toList (s : String) : String.mk s.toList = s := by
  cases s; rfl

theorem parseStrBody_escList (l rest : List Char) :
    parseStrBody (escList l ++ '"' :: rest) = some (l, rest) := by
  induction l with
  | nil =>
    rw [show escList [] ++ '"' :: rest = '"' :: rest by simp [escList]]
    rw [parseStrBody.eq_def]
    simp
  | cons c l ih =>
    by_cases h1 : c = '"'
    · subst h1
      simp only [escList, escChar, if_pos rfl, List.cons_append, List.append_assoc,
        List.nil_append]
      rw [parseStrBody.eq_def]
      simp [unescChar, ih]
    · by_cases h2 : c = '\\'
      · subst h2
        simp only [escList, escChar, List.cons_append, List.append_assoc, List.nil_append]
        norm_num
        rw [parseStrBody.eq_def]
        simp [unescChar, ih]
      · by_cases h3 : c = '\n'
        · subst h3
          simp only [escList, escChar, List.cons_append, List.append_assoc, List.nil_append]
          norm_num
          rw [parseStrBody.eq_def]
          simp [unescChar, ih]
        · by_cases h4 : c = '\t'
          · subst h4
            simp only [escList, escChar, List.cons_append, List.append_assoc, List.nil_append]
            norm_num
            rw [parseStrBody.eq_def]
            simp [unescChar, ih]
          · by_cases h5 : c = '\r'
            · subst h5
              simp only [escList, escChar, List.cons_append, List.append_assoc,
                List.nil_append]
              norm_num
              rw [parseStrBody.eq_def]
              simp [unescChar, ih]
            · have he : escChar c = [c] := by simp [escChar, h1, h2, h3, h4, h5]
              simp only [escList, he, List.cons_append]
              rw [parseStrBody.eq_def]
              simp [h1, h2, ih]

theorem renderJ_head (j : Json) (h : j.numFree = true) :
    ∃ tl, renderJ j = 'n' :: tl ∨ renderJ j = 't' :: tl ∨ renderJ j = 'f' :: tl ∨
      renderJ j = '"' :: tl ∨ renderJ j = '[' :: tl ∨ renderJ j = '{' :: tl := by
  cases j with
  | null => exact ⟨['u', 'l', 'l'], Or.inl (by simp [renderJ, litNull])⟩
  | bool b =>
    cases b
    · exact ⟨['a', 'l', 's', 'e'], Or.inr (Or.inr (Or.inl (by simp [renderJ, litFalse])))⟩
    · exact ⟨['r', 'u', 'e'], Or.inr (Or.inl (by simp [renderJ, litTrue]))⟩
  | num n => simp [Json.numFree] at h
  | str s =>
    exact ⟨escList s.toList ++ ['"'],
      Or.inr (Or.inr (Or.inr (Or.inl (by simp [renderJ, strLitChars]))))⟩
  | arr xs =>
    exact ⟨renderElems xs ++ [']'],
      Or.inr (Or.inr (Or.inr (Or.inr (Or.inl (by simp [renderJ])))))⟩
  | obj kvs =>
    exact ⟨renderMembers kvs ++ ['}'],
      Or.inr (Or.inr (Or.inr (Or.inr (Or.inr (by simp [renderJ])))))⟩

theorem renderJ_length_pos (j : Json) (h : j.numFree = true) :
    0 < (renderJ j).length := by
  obtain ⟨tl, hd⟩ := renderJ_head j h
  rcases hd with h1 | h1 | h1 | h1 | h1 | h1 <;> simp [h1]

/-- `renderElems (x :: xs)` starts with the first character of `renderJ x`. -/
theorem renderElems_decomp (x : Json) (xs : List Json) :
    ∃ Z, renderElems (x :: xs) = renderJ x ++ Z := by
  cases xs with
  | nil => exact ⟨[], by simp [renderElems]⟩
  | cons y ys => exact ⟨',' :: renderElems (y :: ys), by simp [renderElems]⟩

theorem renderElems_head_facts (x : Json) (xs : List Json) (hx : x.numFree = true)
    (tail : List Char) :
    skipWs (renderElems (x :: xs) ++ tail) = renderElems (x :: xs) ++ tail ∧
    (renderElems (x :: xs) ++ tail).head? ≠ some ']' := by
  obtain ⟨Z, hZ⟩ := renderElems_decomp x xs
  obtain ⟨tl, hd⟩ := renderJ_head x hx
  rcases hd with h1 | h1 | h1 | h1 | h1 | h1 <;>
    rw [hZ, h1] <;> simp [skipWs]

theorem renderMembers_head_facts (k : String) (v : Json) (ms : List (String × Json))
    (tail : List Char) :
    skipWs (renderMembers ((k, v) :: ms) ++ tail) = renderMembers ((k, v) :: ms) ++ tail ∧
    (renderMembers ((k, v) :: ms) ++ tail).head? ≠ some '}' := by
  cases ms with
  | nil => simp [renderMembers, strLitChars, skipWs]
  | cons m ms => simp [renderMembers, strLitChars, skipWs]

theorem strLitChars_length (s : String) :
    (strLitChars s).length = (escList s.toList).length + 2 := by
  simp [strLitChars]

theorem renderElems_ne_nil (x : Json) (xs : List Json) (hx : x.numFree = true) :
    renderElems (x :: xs) ≠ [] := by
  obtain ⟨Z, hZ⟩ := renderElems_decomp x xs
  have hp := renderJ_length_pos x hx
  apply List.ne_nil_of_length_pos
  rw [hZ]
  simp only [List.length_append]
  omega

theorem renderElems_head_ne (x : Json) (xs : List Json) (hx : x.numFree = true) :
    (renderElems (x :: xs)).head? ≠ some ']' := by
  have h := (renderElems_head_facts x xs hx []).2
  simpa using h

theorem renderMembers_ne_nil (k : String) (v : Json) (ms : List (String × Json)) :
    renderMembers ((k, v) :: ms) ≠ [] := by
  cases ms with
  | nil => simp [renderMembers, strLitChars]
  | cons m ms => simp [renderMembers, strLitChars]

theorem renderMembers_head_ne (k : String) (v : Json) (ms : List (String × Json)) :
    (renderMembers ((k, v) :: ms)).head? ≠ some '}' := by
  have h := (renderMembers_head_facts k v ms []).2
  simpa using h

/-- The JSON parser inverts the serializer on every number-free value
(simultaneously for values, array elements and object members). -/
theorem parse_render (fuel : Nat) :
    (∀ j rest, j.numFree = true → (renderJ j).length ≤ fuel →
      parseVal fuel (renderJ j ++ rest) = some (j, rest)) ∧
    (∀ xs rest, xs ≠ [] → Json.numFreeList xs = true → (renderElems xs).length < fuel →
      parseElems fuel (renderElems xs ++ ']' :: rest) = some (xs, rest)) ∧
    (∀ kvs rest, kvs ≠ [] → Json.numFreeMembers kvs = true →
      (renderMembers kvs).length < fuel →
      parseMembers fuel (renderMembers kvs ++ '}' :: rest) = some (kvs, rest)) := by
  induction fuel with
  | zero =>
    refine ⟨fun j rest hnf hlen => ?_, fun xs rest hne hnf hlen => ?_,
      fun kvs rest hne hnf hlen => ?_⟩
    · have := renderJ_length_pos j hnf; omega
    · omega
    · omega
  | succ fuel ih =>
    obtain ⟨ihV, ihE, ihM⟩ := ih
    refine ⟨fun j rest hnf hlen => ?_, fun xs rest hne hnf hlen => ?_,
      fun kvs rest hne hnf hlen => ?_⟩
    · cases j with
      | null => simp [renderJ, litNull, parseVal, skipWs, expectChars]
      | bool b =>
        cases b <;> simp [renderJ, litTrue, litFalse, parseVal, skipWs, expectChars]
      | num n => simp [Json.numFree] at hnf
      | str s =>
        rw [show renderJ (.str s) ++ rest = '"' :: (escList s.toList ++ '"' :: rest) by
          simp [renderJ, strLitChars]]
        simp [parseVal, skipWs, parseStrBody_escList, strMk_toList]
      | arr xs =>
        cases xs with
        | nil => simp [renderJ, renderElems, parseVal, skipWs]
        | cons x xs =>
          have hnf2 : Json.numFreeList (x :: xs) = true := by
            simpa [Json.numFree] using hnf
          have hx : x.numFree = true := by
            simp [Json.numFreeList, Bool.and_eq_true] at hnf2
            exact hnf2.1
          have hnf3 : Json.numFreeList (x :: xs) = true := by
            simpa [Json.numFree] using hnf
          have hlen2 : (renderElems (x :: xs)).length < fuel := by
            simp [renderJ] at hlen; omega
          obtain ⟨hskip, hhd⟩ := renderElems_head_facts x xs hx (']' :: rest)
          have hhd0 := renderElems_head_ne x xs hx
          have hnil := renderElems_ne_nil x xs hx
          rw [show renderJ (.arr (x :: xs)) ++ rest
              = '[' :: (renderElems (x :: xs) ++ ']' :: rest) by simp [renderJ]]
          rw [parseVal.eq_def]
          simp only [skipWs] at hskip ⊢
          have hE := ihE (x :: xs) rest (by simp) hnf3 hlen2
          simp only [skipWs] at hE
          simp [hskip, hhd, hE, hhd0, hnil]
      | obj kvs =>
        cases kvs with
        | nil => simp [renderJ, renderMembers, parseVal, skipWs]
        | cons m ms =>
          obtain ⟨k, v⟩ := m
          have hnf2 : Json.numFreeMembers ((k, v) :: ms) = true := by
            simpa [Json.numFree] using hnf
          have hlen2 : (renderMembers ((k, v) :: ms)).length < fuel := by
            simp [renderJ] at hlen; omega
          obtain ⟨hskip, hhd⟩ := renderMembers_head_facts k v ms ('}' :: rest)
          have hhd0 := renderMembers_head_ne k v ms
          have hnil := renderMembers_ne_nil k v ms
          rw [show renderJ (.obj ((k, v) :: ms)) ++ rest
              = '{' :: (renderMembers ((k, v) :: ms) ++ '}' :: rest) by simp [renderJ]]
          rw [parseVal.eq_def]
          simp only [skipWs] at hskip ⊢
          have hM := ihM ((k, v) :: ms) rest (by simp) hnf2 hlen2
          simp only [skipWs] at hM
          simp [hskip, hhd, hM, hhd0, hnil]
    · cases xs with
      | nil => exact absurd rfl hne
      | cons x xs2 =>
        have hconj : x.numFree = true ∧ Json.numFreeList xs2 = true := by
          simpa [Json.numFreeList, Bool.and_eq_true] using hnf
        obtain ⟨hx, hxs2⟩ := hconj
        cases xs2 with
        | nil =>
          have hlenx : (renderJ x).length ≤ fuel := by
            simp [renderElems] at hlen; omega
          rw [show renderElems [x] ++ ']' :: rest = renderJ x ++ ']' :: rest by
            simp [renderElems]]
          rw [parseElems.eq_def]
          simp [ihV x (']' :: rest) hx hlenx, skipWs]
        | cons y ys =>
          have hposx := renderJ_length_pos x hx
          have h1 : (renderJ x).length ≤ fuel := by
            simp [renderElems] at hlen; omega
          have h2 : (renderElems (y :: ys)).length < fuel := by
            simp [renderElems] at hlen; omega
          have hE2 := ihE (y :: ys) rest (by simp) hxs2 h2
          rw [show renderElems (x :: y :: ys) ++ ']' :: rest
              = renderJ x ++ (',' :: (renderElems (y :: ys) ++ ']' :: rest)) by
            simp [renderElems]]
          rw [parseElems.eq_def]
          simp [ihV x (',' :: (renderElems (y :: ys) ++ ']' :: rest)) hx h1, skipWs, hE2]
    · cases kvs with
      | nil => exact absurd rfl hne
      | cons m ms =>
        obtain ⟨k, v⟩ := m
        have hconj : v.numFree = true ∧ Json.numFreeMembers ms = true := by
          simpa [Json.numFreeMembers, Bool.and_eq_true] using hnf
        obtain ⟨hv, hms⟩ := hconj
        cases ms with
        | nil =>
          have hlenv : (renderJ v).length ≤ fuel := by
            simp [renderMembers, strLitChars] at hlen; omega
          rw [show renderMembers [(k, v)] ++ '}' :: rest
              = '"' :: (escList k.toList ++ '"' :: (':' :: (renderJ v ++ '}' :: rest))) by
            simp [renderMembers, strLitChars]]
          rw [parseMembers.eq_def]
          simp [skipWs, parseStrBody_escList, ihV v ('}' :: rest) hv hlenv, strMk_toList]
        | cons m2 ms2 =>
          have hposv := renderJ_length_pos v hv
          have h1 : (renderJ v).length ≤ fuel := by
            simp [renderMembers, strLitChars] at hlen; omega
          have h2 : (renderMembers (m2 :: ms2)).length < fuel := by
            simp [renderMembers, strLitChars] at hlen; omega
          have hM2 := ihM (m2 :: ms2) rest (by simp) hms h2
          rw [show renderMembers ((k, v) :: m2 :: ms2) ++ '}' :: rest
              = '"' :: (escList k.toList ++ '"' ::
                  (':' :: (renderJ v ++ (',' :: (renderMembers (m2 :: ms2) ++ '}' :: rest))))) by
            simp [renderMembers, strLitChars]]
          rw [parseMembers.eq_def]
          simp [skipWs, parseStrBody_escList,
            ihV v (',' :: (renderMembers (m2 :: ms2) ++ '}' :: rest)) hv h1, hM2, strMk_toList]

theorem parseJsonChars_render (j : Json) (h : j.numFree = true) :
    parseJsonChars (renderJ j) = some j := by
  have hmain := (parse_render ((renderJ j).length + 1)).1 j [] h (by omega)
  unfold parseJsonChars
  rw [show renderJ j ++ ([] : List Char) = renderJ j by simp] at hmain
  rw [hmain]
  simp [skipWs]

theorem numFreeList_map_str (l : List String) :
    Json.numFreeList (l.map Json.str) = true := by
  induction l with
  | nil => simp [Json.numFreeList]
  | cons s l ih => simp [Json.numFreeList, Json.numFree, ih]

theorem numFree_encodeColumnAnalysis (c : ColumnAnalysis) :
    (encodeColumnAnalysis c).numFree = true := by
  simp [encodeColumnAnalysis, Json.numFree, Json.numFreeMembers, numFreeList_map_str]

theorem numFree_encodeColumns (cols : List ColumnAnalysis) :
    (encodeColumns cols).numFree = true := by
  have : Json.numFreeList (cols.map encodeColumnAnalysis) = true := by
    induction cols with
    | nil => simp [Json.numFreeList]
    | cons c cols ih => simp [Json.numFreeList, numFree_encodeColumnAnalysis, ih]
  simp [encodeColumns, Json.numFree, this]

theorem trimLeftChars_cons (c : Char) (X : List Char) (h : isWsChar c = false) :
    trimLeftChars (c :: X) = c :: X := by
  simp [trimLeftChars, List.dropWhile_cons, h]

theorem trimRightChars_append (Y : List Char) (d : Char) (h : isWsChar d = false) :
    trimRightChars (Y ++ [d]) = Y ++ [d] := by
  simp [trimRightChars, List.reverse_append, List.dropWhile_cons, h]

theorem trimChars_sandwich (c : Char) (X : List Char) (d : Char)
    (hc : isWsChar c = false) (hd : isWsChar d = false) :
    trimChars ((c :: X) ++ [d]) = (c :: X) ++ [d] := by
  unfold trimChars
  rw [show (c :: X) ++ [d] = c :: (X ++ [d]) by simp]
  rw [trimLeftChars_cons _ _ hc]
  rw [show c :: (X ++ [d]) = (c :: X) ++ [d] by simp]
  exact trimRightChars_append _ _ hd

theorem trimRight_drop_ws (Y : List Char) (d w : Char)
    (hd : isWsChar d = false) (hw : isWsChar w = true) :
    trimRightChars ((Y ++ [d]) ++ [w]) = Y ++ [d] := by
  simp [trimRightChars, List.reverse_append, List.dropWhile_cons, hw, hd]

theorem fenceMatch_cons_ne (c : Char) (X : List Char) (h : ¬ c = '`') :
    fenceMatch (c :: X) = none := by
  unfold fenceMatch
  rw [if_neg]
  intro hc2
  rw [List.take_succ_cons] at hc2
  simp [backticks3] at hc2
  exact h hc2.1

theorem parseJsonFromMarkdown_render_arr (xs : List Json) (h : Json.numFreeList xs = true) :
    parseJsonFromMarkdown (String.mk (renderJ (.arr xs))) = some (.arr xs) := by
  have hnf : (Json.arr xs).numFree = true := by simp [Json.numFree, h]
  have hR : renderJ (.arr xs) = ('[' :: renderElems xs) ++ [']'] := by simp [renderJ]
  have htrim : trimChars (renderJ (.arr xs)) = renderJ (.arr xs) := by
    rw [hR]; exact trimChars_sandwich _ _ _ (by decide) (by decide)
  have hfence : fenceMatch (renderJ (.arr xs)) = none := by
    rw [show renderJ (.arr xs) = '[' :: (renderElems xs ++ [']']) by simp [renderJ]]
    exact fenceMatch_cons_ne _ _ (by decide)
  have hparse := parseJsonChars_render _ hnf
  simp [parseJsonFromMarkdown, htrim, hfence, hparse]


theorem wrapJsonFence_toList (R : List Char) :
    (wrapJsonFence (String.mk R)).toList
      = '`' :: '`' :: '`' :: 'j' :: 's' :: 'o' :: 'n' :: '\n' ::
        (R ++ ['\n', '`', '`', '`']) := by
  show (("```json\n" ++ String.mk R ++ "\n```").data) = _
  rw [String.data_append, String.data_append]
  show ['`','`','`','j','s','o','n','\n'] ++ R ++ ['\n','`','`','`'] = _
  simp

theorem isWordChar_j : isWordChar 'j' = true := by decide
theorem isWordChar_s : isWordChar 's' = true := by decide
theorem isWordChar_o : isWordChar 'o' = true := by decide
theorem isWordChar_nn : isWordChar 'n' = true := by decide
theorem isWordChar_nl : isWordChar '\n' = false := by decide
theorem isWsChar_nl : isWsChar '\n' = true := by decide

theorem fenceMatch_wrapped (B : List Char) :
    fenceMatch ('`' :: '`' :: '`' :: 'j' :: 's' :: 'o' :: 'n' :: '\n' ::
        ((('[' :: B) ++ [']']) ++ ['\n', '`', '`', '`']))
      = some (('[' :: B) ++ [']']) := by
  unfold fenceMatch
  rw [if_pos (by rw [List.take_succ_cons, List.take_succ_cons, List.take_succ_cons]; rfl)]
  rw [show List.drop 3 ('`' :: '`' :: '`' :: 'j' :: 's' :: 'o' :: 'n' :: '\n' ::
        ((('[' :: B) ++ [']']) ++ ['\n', '`', '`', '`']))
      = 'j' :: 's' :: 'o' :: 'n' :: '\n' :: ((('[' :: B) ++ [']']) ++ ['\n', '`', '`', '`'])
    from rfl]
  rw [List.dropWhile_cons, isWordChar_j]
  rw [List.dropWhile_cons, isWordChar_s]
  rw [List.dropWhile_cons, isWordChar_o]
  rw [List.dropWhile_cons, isWordChar_nn]
  rw [List.dropWhile_cons, isWordChar_nl]
  simp only [if_true, if_false, Bool.false_eq_true, ite_false, ite_true]
  rw [List.dropWhile_cons, isWsChar_nl]
  simp only [if_true, ite_true]
  rw [show ((('[' :: B) ++ [']']) ++ ['\n', '`', '`', '`'])
      = '[' :: ((B ++ [']']) ++ ['\n', '`', '`', '`']) by simp]
  rw [List.dropWhile_cons, isWsChar_lbrack]
  simp only [Bool.false_eq_true, ite_false, if_false]
  rw [show '[' :: ((B ++ [']']) ++ ['\n', '`', '`', '`'])
      = ('[' :: (B ++ [']'] ++ ['\n'])) ++ backticks3 by simp [backticks3]]
  rw [show (('[' :: (B ++ [']'] ++ ['\n'])) ++ backticks3).length - 3
      = ('[' :: (B ++ [']'] ++ ['\n'])).length by simp [backticks3]]
  rw [List.drop_left, List.take_left]
  rw [if_pos ⟨by simp [backticks3], rfl⟩]
  rw [show trimChars ('[' :: (B ++ [']'] ++ ['\n'])) = ('[' :: B) ++ [']'] by
    unfold trimChars
    rw [trimLeftChars_cons _ _ (by decide)]
    rw [show '[' :: (B ++ [']'] ++ ['\n']) = (('[' :: B) ++ [']']) ++ ['\n'] by simp]
    exact trimRight_drop_ws _ _ _ (by decide) (by decide)]
  rw [if_neg (by simp)]

theorem parseJsonFromMarkdown_wrapped (xs : List Json) (h : Json.numFreeList xs = true) :
    parseJsonFromMarkdown (wrapJsonFence (String.mk (renderJ (.arr xs)))) = some (.arr xs) := by
  have hnf : (Json.arr xs).numFree = true := by simp [Json.numFree, h]
  have hparse := parseJsonChars_render _ hnf
  have hR : renderJ (.arr xs) = ('[' :: renderElems xs) ++ [']'] := by simp [renderJ]
  have hcs := wrapJsonFence_toList (renderJ (.arr xs))
  have htrim : trimChars ('`' :: '`' :: '`' :: 'j' :: 's' :: 'o' :: 'n' :: '\n' ::
        (renderJ (.arr xs) ++ ['\n', '`', '`', '`']))
      = '`' :: '`' :: '`' :: 'j' :: 's' :: 'o' :: 'n' :: '\n' ::
        (renderJ (.arr xs) ++ ['\n', '`', '`', '`']) := by
    rw [show '`' :: '`' :: '`' :: 'j' :: 's' :: 'o' :: 'n' :: '\n' ::
          (renderJ (.arr xs) ++ ['\n', '`', '`', '`'])
        = ('`' :: ('`' :: '`' :: 'j' :: 's' :: 'o' :: 'n' :: '\n' ::
            (renderJ (.arr xs) ++ ['\n', '`', '`']))) ++ ['`'] by simp]
    exact trimChars_sandwich _ _ _ (by decide) (by decide)
  have hfence : fenceMatch ('`' :: '`' :: '`' :: 'j' :: 's' :: 'o' :: 'n' :: '\n' ::
        (renderJ (.arr xs) ++ ['\n', '`', '`', '`'])) = some (renderJ (.arr xs)) := by
    rw [hR]
    exact fenceMatch_wrapped (renderElems xs)
  simp only [String.toList] at hcs
  simp [parseJsonFromMarkdown, hcs, htrim, hfence, hparse]

theorem json_str_injective : Function.Injective Json.str := by
  intro u v huv
  injection huv

theorem encodeColumnAnalysis_injective : Function.Injective encodeColumnAnalysis := by
  intro x y hxy
  cases x with
  | mk a1 a2 a3 a4 a5 =>
    cases y with
    | mk b1 b2 b3 b4 b5 =>
      simp [encodeColumnAnalysis] at hxy
      obtain ⟨e1, e2, e3, e4, e5⟩ := hxy
      have e5b := (List.map_injective_iff.mpr json_str_injective) e5
      simp_all

/-- C6: a `ColumnAnalysis` array serialized to JSON text and fed back to the
schema-inference response parser (`parseJsonFromMarkdown`) parses to an equal
array, both as raw JSON and wrapped in a Markdown code fence; together with
injectivity of the encoding this is the identity-LLM-stub round trip. -/
theorem c6_schema_roundtrip (cols : List ColumnAnalysis) :
    parseJsonFromMarkdown (String.mk (renderJ (encodeColumns cols)))
        = some (encodeColumns cols) ∧
    parseJsonFromMarkdown (wrapJsonFence (String.mk (renderJ (encodeColumns cols))))
        = some (encodeColumns cols) ∧
    Function.Injective encodeColumns := by
  have h : Json.numFreeList (cols.map encodeColumnAnalysis) = true := by
    have h2 := numFree_encodeColumns cols
    simpa [encodeColumns, Json.numFree] using h2
  refine ⟨?_, ?_, ?_⟩
  · simpa [encodeColumns] using parseJsonFromMarkdown_render_arr _ h
  · simpa [encodeColumns] using parseJsonFromMarkdown_wrapped _ h
  · intro a b hab
    simp [encodeColumns] at hab
    exact (List.map_injective_iff.mpr encodeColumnAnalysis_injective) hab

theorem c6_schema_roundtrip_witness :
    parseJsonFromMarkdown (String.mk (renderJ (encodeColumns
        [⟨"name", "TEXT", "Person Name", "a name", ["Contains null values"]⟩])))
      = some (encodeColumns
        [⟨"name", "TEXT", "Person Name", "a name", ["Contains null values"]⟩]) ∧
    parseJsonFromMarkdown (wrapJsonFence (String.mk (renderJ (encodeColumns
        [⟨"name", "TEXT", "Person Name", "a name", ["Contains null values"]⟩]))))
      = some (encodeColumns
        [⟨"name", "TEXT", "Person Name", "a name", ["Contains null values"]⟩]) :=
  ⟨(c6_schema_roundtrip _).1, (c6_schema_roundtrip _).2.1⟩

/-- C7 counterexample: the response `null` parses to the non-array JSON
value null, yet the program returns the parse-failure message — the
JavaScript truthiness check `if (!parsedResult)` fires before the
`Array.isArray` validation — not the not-array error, refuting the claim
as stated. -/
theorem c7_nonarray_error_counterexample :
    parseJsonFromMarkdown "null" = some Json.null ∧
    analyzeSchemaWithGemini true (some "null")
      = ⟨none, some "Failed to parse schema analysis from LLM response."⟩ ∧
    (analyzeSchemaWithGemini true (some "null")).error
      ≠ some "LLM response for schema analysis was not in the expected array format." :=
  ⟨rfl, rfl, by decide⟩

/-- C7 (amended): when the LLM response text parses (after optional fence
stripping) to a JSON value that is not an array and not JavaScript-falsy,
`analyzeSchemaWithGemini` returns no analysis and the "not in the
expected array format" error; when the parsed value is falsy (null,
false, 0 or the empty string) the `if (!parsedResult)` check makes it
indistinguishable from a parse failure, so the parse-failure error is
returned instead (still with no analysis). -/
theorem c7_nonarray_error (text : String) (v : Json)
    (hp : parseJsonFromMarkdown text = some v) :
    (v.isFalsy = false → (∀ ys, v ≠ Json.arr ys) →
      analyzeSchemaWithGemini true (some text)
        = ⟨none, some "LLM response for schema analysis was not in the expected array format."⟩) ∧
    (v.isFalsy = true →
      analyzeSchemaWithGemini true (some text)
        = ⟨none, some "Failed to parse schema analysis from LLM response."⟩) := by
  constructor
  · intro hf hv
    cases v with
    | arr ys => exact absurd rfl (hv ys)
    | null => simp [Json.isFalsy] at hf
    | bool b =>
      cases b
      · simp [Json.isFalsy] at hf
      · simp [analyzeSchemaWithGemini, hp, hf]
    | num n => simp [analyzeSchemaWithGemini, hp, hf]
    | str s => simp [analyzeSchemaWithGemini, hp, hf]
    | obj kvs => simp [analyzeSchemaWithGemini, hp, hf]
  · intro hf
    simp [analyzeSchemaWithGemini, hp, hf]

theorem c7_nonarray_error_witness :
    analyzeSchemaWithGemini true (some "\x7b\"col\": 1\x7d")
      = ⟨none, some "LLM response for schema analysis was not in the expected array format."⟩ ∧
    analyzeSchemaWithGemini true (some "false")
      = ⟨none, some "Failed to parse schema analysis from LLM response."⟩ :=
  ⟨(c7_nonarray_error "\x7b\"col\": 1\x7d" (Json.obj [("col", Json.num 1)]) rfl).1 rfl
      (fun ys h => Json.noConfusion h),
    (c7_nonarray_error "false" (Json.bool false) rfl).2 rfl⟩

/-- C8: `generateSqlSchemaWithGemini` returns a SQL string exactly when the
stripped-and-trimmed response begins case-insensitively with `CREATE TABLE`;
a success returns that candidate text, and a failure carries the offending
candidate text in the error. -/
theorem c8_create_table_gate (resp : String) :
    ((generateSqlSchemaWithGemini true (some resp)).sql.isSome = true ↔
      List.isPrefixOf "CREATE TABLE".toList ((sqlCandidate resp).map Char.toUpper) = true) ∧
    ((generateSqlSchemaWithGemini true (some resp)).sql.isSome = true →
      generateSqlSchemaWithGemini true (some resp)
        = ⟨some (String.mk (sqlCandidate resp)), none⟩) ∧
    ((generateSqlSchemaWithGemini true (some resp)).sql.isSome = false →
      generateSqlSchemaWithGemini true (some resp)
        = ⟨none, some ("LLM did not return a valid CREATE TABLE statement. Response: "
            ++ String.mk (sqlCandidate resp))⟩) := by
  by_cases hpre : List.isPrefixOf "CREATE TABLE".toList ((sqlCandidate resp).map Char.toUpper) = true
  · simp at hpre
    simp [generateSqlSchemaWithGemini, hpre]
  · simp at hpre
    simp [generateSqlSchemaWithGemini, hpre]

theorem c8_create_table_gate_witness :
    generateSqlSchemaWithGemini true (some "```sql\nCREATE TABLE t (x INTEGER);\n```")
      = ⟨some "CREATE TABLE t (x INTEGER);", none⟩ ∧
    generateSqlSchemaWithGemini true (some "SELECT 1;")
      = ⟨none, some "LLM did not return a valid CREATE TABLE statement. Response: SELECT 1;"⟩ :=
  ⟨(c8_create_table_gate _).2.1 rfl, (c8_create_table_gate _).2.2 rfl⟩

/-- C5: parse shape guarantees for CSV (row count and column keys), JSON
arrays (the elements themselves) and single JSON objects (a one-element
wrap). -/
theorem c5_parse_shapes :
    (∀ fileName content header dataLines,
        fileExtension fileName = "csv" →
        splitLines content = header :: dataLines →
        (∀ l ∈ dataLines, l ≠ "" → (splitFields l).length = (splitFields header).length) →
        ∃ rows, parseData fileName content = .ok rows ∧
          rows.length = (dataLines.filter (fun l => l ≠ "")).length ∧
          ∀ r ∈ rows, rowKeys r = splitFields header) ∧
    (∀ fileName content xs,
        fileExtension fileName = "json" →
        parseJsonChars content.toList = some (Json.arr xs) →
        parseData fileName content = .ok xs) ∧
    (∀ fileName content kvs,
        fileExtension fileName = "json" →
        parseJsonChars content.toList = some (Json.obj kvs) →
        parseData fileName content = .ok [Json.obj kvs]) := by
  refine ⟨?_, ?_, ?_⟩
  · intro fileName content header dataLines hext hsplit hconsistent
    refine ⟨parseCsvRows content, ?_, ?_, ?_⟩
    · simp [parseData, hext]
    · simp [parseCsvRows, hsplit]
    · intro r hr
      simp [parseCsvRows, hsplit] at hr
      obtain ⟨l, ⟨hl, hlne⟩, hrow⟩ := hr
      subst hrow
      simp [rowKeys]
      apply List.map_fst_zip
      simp [hconsistent l hl hlne]
  · intro fileName content xs hext hparse
    simp only [String.toList] at hparse
    simp [parseData, hext, hparse]
  · intro fileName content kvs hext hparse
    simp only [String.toList] at hparse
    simp [parseData, hext, hparse]

theorem c5_parse_shapes_witness :
    (∃ rows, parseData "data.csv" "a,b\n1,2\n\nx,y" = .ok rows ∧
      rows.length = ((["1,2", "", "x,y"] : List String).filter (fun l => l ≠ "")).length ∧
      ∀ r ∈ rows, rowKeys r = splitFields "a,b") ∧
    parseData "data.json" "[1,2]" = .ok [Json.num 1, Json.num 2] ∧
    parseData "obj.json" "\x7b\"a\":true\x7d" = .ok [Json.obj [("a", Json.bool true)]] :=
  ⟨c5_parse_shapes.1 "data.csv" "a,b\n1,2\n\nx,y" "a,b" ["1,2", "", "x,y"]
      (by decide) (by decide) (by decide),
    c5_parse_shapes.2.1 "data.json" "[1,2]" _ (by decide) rfl,
    c5_parse_shapes.2.2 "obj.json" "\x7b\"a\":true\x7d" _ (by decide) rfl⟩

/-- C2: if a non-empty batch insert fails at any row, the whole
transaction rolls back: the store state, and in particular every table's
visible rows, are exactly as before the call. -/
theorem c2_batch_rollback (rowOk : Json → Bool) (st : ServiceState)
    (tableName : String) (data : List Json) (out : InsertOutcome)
    (st2 : ServiceState) (n : Nat)
    (hne : data ≠ [])
    (hrun : batchInsertData rowOk st tableName data = (out, st2, n))
    (hfail : out.success = false) :
    st2 = st ∧ ∀ name, tableRows st2 name = tableRows st name := by
  have hst : st2 = st := by
    cases hconn : st.conn with
    | none =>
      simp [batchInsertData, hconn] at hrun
      exact hrun.2.1.symm
    | some c =>
      have hlen : ¬ data.length = 0 := by simpa using hne
      simp only [batchInsertData, hconn] at hrun
      rw [if_neg hlen] at hrun
      rcases hloop : insertLoop rowOk tableName (rowKeys (data.headD Json.null)) c.tables data
        with ⟨res, m⟩
      rw [hloop] at hrun
      cases res with
      | ok tables2 =>
        simp at hrun
        rw [← hrun.1] at hfail
        simp at hfail
      | error e =>
        simp at hrun
        exact hrun.2.1.symm
  exact ⟨hst, fun name => by rw [hst]⟩

theorem c2_batch_rollback_witness :
    batchInsertData
        (fun r => match r with | Json.obj [("a", Json.num 5)] => false | _ => true)
        ⟨some ⟨"db1", [("t", [])]⟩⟩ "t"
        [Json.obj [("a", Json.num 1)], Json.obj [("a", Json.num 5)]]
      = (⟨false, some "Batch insert error: constraint violation"⟩,
          ⟨some ⟨"db1", [("t", [])]⟩⟩, 2) ∧
    (⟨some ⟨"db1", [("t", [])]⟩⟩ : ServiceState) = ⟨some ⟨"db1", [("t", [])]⟩⟩ :=
  ⟨rfl,
    (c2_batch_rollback
      (fun r => match r with | Json.obj [("a", Json.num 5)] => false | _ => true)
      ⟨some ⟨"db1", [("t", [])]⟩⟩ "t"
      [Json.obj [("a", Json.num 1)], Json.obj [("a", Json.num 5)]]
      ⟨false, some "Batch insert error: constraint violation"⟩
      ⟨some ⟨"db1", [("t", [])]⟩⟩ 2 (by simp) rfl rfl).1⟩

/-- C3: `initializePGLite` on an open connection is a no-op success for
the same key; for a different key it first closes the old connection and
only then opens the new one, and along the emitted event sequence the
number of live connections never exceeds one. -/
theorem c3_init_single_connection (closeOk newOk : Bool) (st : ServiceState)
    (c : Conn) (dbName : String) (hc : st.conn = some c) :
    (c.dbName = dbName →
      initializePGLite closeOk newOk st dbName = ⟨true, st, []⟩) ∧
    (¬ c.dbName = dbName →
      ∃ rest, (initializePGLite closeOk newOk st dbName).events
          = ConnEvent.closed c.dbName :: rest ∧
        (rest = [] ∨ rest = [ConnEvent.opened dbName])) ∧
    (∀ k, liveCount (connCount st)
        ((initializePGLite closeOk newOk st dbName).events.take k) ≤ 1) := by
  refine ⟨fun hname => by simp [initializePGLite, hc, hname], ?_, ?_⟩
  · intro hname
    cases closeOk with
    | false => exact ⟨[], by simp [initializePGLite, hc, hname], Or.inl rfl⟩
    | true =>
      cases newOk with
      | false => exact ⟨[], by simp [initializePGLite, hc, hname], Or.inl rfl⟩
      | true =>
        exact ⟨[ConnEvent.opened dbName], by simp [initializePGLite, hc, hname], Or.inr rfl⟩
  · intro k
    by_cases hname : c.dbName = dbName
    · simp [initializePGLite, hc, hname, connCount, liveCount]
    · cases closeOk <;> cases newOk <;>
        rcases k with _ | _ | _ | k <;>
        simp [initializePGLite, hc, hname, connCount, liveCount]

theorem c3_init_single_connection_witness :
    initializePGLite true true ⟨some ⟨"a", []⟩⟩ "a" = ⟨true, ⟨some ⟨"a", []⟩⟩, []⟩ ∧
    (∃ rest, (initializePGLite true true ⟨some ⟨"a", []⟩⟩ "b").events
        = ConnEvent.closed "a" :: rest ∧
      (rest = [] ∨ rest = [ConnEvent.opened "b"])) :=
  ⟨(c3_init_single_connection true true ⟨some ⟨"a", []⟩⟩ ⟨"a", []⟩ "a" rfl).1 rfl,
    (c3_init_single_connection true true ⟨some ⟨"a", []⟩⟩ ⟨"a", []⟩ "b" rfl).2.1
      (by decide)⟩

/-- C4 counterexample: with the store uninitialized, `batchInsertData` on
an empty row sequence returns failure ("PGLite not initialized."), not
success — the initialization check precedes the empty-input check, so the
claim's "for every store state" fails. -/
theorem c4_empty_insert_counterexample :
    (batchInsertData (fun _ => true) ⟨none⟩ "t" []).1
      = ⟨false, some "PGLite not initialized."⟩ := rfl

/-- C4 (amended): on an initialized store an empty batch insert succeeds,
leaves the state unchanged and executes no statement against the store;
on an uninitialized store it fails with "PGLite not initialized." even on
empty input (and still never contacts the store). -/
theorem c4_empty_insert (rowOk : Json → Bool) (tableName : String) :
    (∀ st c, st.conn = some c →
      batchInsertData rowOk st tableName [] = (⟨true, none⟩, st, 0)) ∧
    (∀ st, st.conn = none →
      batchInsertData rowOk st tableName []
        = (⟨false, some "PGLite not initialized."⟩, st, 0)) :=
  ⟨fun st c hc => by simp [batchInsertData, hc],
    fun st hc => by simp [batchInsertData, hc]⟩

theorem c4_empty_insert_witness :
    batchInsertData (fun _ => true) ⟨some ⟨"db1", []⟩⟩ "t" []
      = (⟨true, none⟩, ⟨some ⟨"db1", []⟩⟩, 0) ∧
    batchInsertData (fun _ => true) ⟨none⟩ "t" []
      = (⟨false, some "PGLite not initialized."⟩, ⟨none⟩, 0) :=
  ⟨(c4_empty_insert (fun _ => true) "t").1 ⟨some ⟨"db1", []⟩⟩ ⟨"db1", []⟩ rfl,
    (c4_empty_insert (fun _ => true) "t").2 ⟨none⟩ rfl⟩

theorem handleFileUpload_missing (f c : String) (l : Option String) (st : AppState) :
    handleFileUpload true f c l st = st := by
  simp [handleFileUpload]

theorem handleGenerateSql_missing (l : Option String) (st : AppState) :
    handleGenerateSql true l st = st := by
  rcases hs : st.schemaAnalysis with _ | a
  · simp [handleGenerateSql, hs]
  · rcases hf : st.file with _ | f
    · simp [handleGenerateSql, hs, hf]
    · simp [handleGenerateSql, hs, hf]

theorem handleProcessWithPGLite_missing (o : ProcessOracle) (st : AppState) :
    handleProcessWithPGLite true o st = st := by
  rcases hq : st.generatedCreateTableSql with _ | sql
  · simp [handleProcessWithPGLite, hq]
  · rcases hd : st.fullParsedData with _ | parsed
    · simp [handleProcessWithPGLite, hq, hd]
    · rcases hf : st.file with _ | f
      · simp [handleProcessWithPGLite, hq, hd, hf]
      · simp [handleProcessWithPGLite, hq, hd, hf]

theorem resetState_conn (missing : Bool) (st : AppState)
    (hinv : st.service.conn.isSome = true → st.currentDbName.isSome = true) :
    (resetState missing st).service.conn = none := by
  by_cases hdb : st.currentDbName.isSome
  · cases hc : st.service.conn with
    | some c => simp [resetState, addLog, closePGLite, hdb, hc]
    | none => simp [resetState, addLog, closePGLite, hdb, hc]
  · have hcnone : st.service.conn = none := by
      cases hc : st.service.conn with
      | none => rfl
      | some c => exact absurd (hinv (by simp [hc])) hdb
    simp [resetState, addLog, hdb, hcnone]

theorem handleFileUpload_conn (missing : Bool) (f c : String) (l : Option String)
    (st : AppState) (hreset : (resetState missing st).service.conn = none) :
    (handleFileUpload missing f c l st).service.conn = none ∨
      handleFileUpload missing f c l st = st := by
  cases missing with
  | true => exact Or.inr (handleFileUpload_missing f c l st)
  | false =>
    left
    unfold handleFileUpload
    simp only [Bool.false_eq_true, if_false, ite_false]
    cases hp : parseData f c with
    | error e => simp [addLog, hreset]
    | ok parsed =>
      by_cases hlen : parsed.length = 0
      · simp [addLog, hlen, hreset]
      · cases ha : (analyzeSchemaWithGemini true l).analysis with
        | none => cases he : (analyzeSchemaWithGemini true l).error <;>
            simp [addLog, hlen, ha, he, hreset]
        | some analysis => cases he : (analyzeSchemaWithGemini true l).error <;>
            simp [addLog, hlen, ha, he, hreset]

theorem handleGenerateSql_frame (missing : Bool) (l : Option String) (st : AppState) :
    (handleGenerateSql missing l st).service = st.service ∧
    (handleGenerateSql missing l st).currentDbName = st.currentDbName := by
  rcases hs : st.schemaAnalysis with _ | a
  · simp [handleGenerateSql, hs]
  · rcases hf : st.file with _ | f
    · simp [handleGenerateSql, hs, hf]
    · cases missing with
      | true => simp [handleGenerateSql, hs, hf]
      | false =>
        cases hr : (generateSqlSchemaWithGemini true l).sql with
        | none => cases he : (generateSqlSchemaWithGemini true l).error <;>
            simp [handleGenerateSql, hs, hf, hr, he, addLog]
        | some sql => cases he : (generateSqlSchemaWithGemini true l).error <;>
            simp [handleGenerateSql, hs, hf, hr, he, addLog]

theorem handleProcess_dbname (missing : Bool) (o : ProcessOracle) (st : AppState) :
    (handleProcessWithPGLite missing o st).currentDbName.isSome = true ∨
      handleProcessWithPGLite missing o st = st := by
  rcases hq : st.generatedCreateTableSql with _ | sql
  · exact Or.inr (by simp [handleProcessWithPGLite, hq])
  · rcases hd : st.fullParsedData with _ | parsed
    · exact Or.inr (by simp [handleProcessWithPGLite, hq, hd])
    · rcases hf : st.file with _ | f
      · exact Or.inr (by simp [handleProcessWithPGLite, hq, hd, hf])
      · cases missing with
        | true => exact Or.inr (by simp [handleProcessWithPGLite, hq, hd, hf])
        | false =>
          left
          unfold handleProcessWithPGLite
          simp only [hq, hd, hf, Bool.false_eq_true, if_false, ite_false]
          simp only [addLog]
          split_ifs with h1 h2 h3
          · simp [addLog]
          · simp [addLog]
          · simp [addLog]
          · split <;> simp [addLog]

/-- At every reachable state, a live store connection implies the
orchestrator still holds the session name that opened it (so reset will
close it). -/
theorem conn_dbname_invariant (missing : Bool) (st : AppState)
    (h : Reachable missing st) :
    st.service.conn.isSome = true → st.currentDbName.isSome = true := by
  induction h with
  | init clock =>
    intro hc
    cases missing <;> simp [startupEffect, initState, addLog] at hc
  | upload fileName content llmResp hst ih =>
    rename_i s
    rcases handleFileUpload_conn missing fileName content llmResp s
        (resetState_conn missing s ih) with hnone | heq
    · intro hc
      rw [hnone] at hc
      simp at hc
    · rw [heq]
      exact ih
  | genSql llmResp hst ih =>
    rename_i s
    have hframe := handleGenerateSql_frame missing llmResp s
    intro hc
    rw [hframe.1] at hc
    rw [hframe.2]
    exact ih hc
  | processDb o hst ih =>
    rename_i s
    rcases handleProcess_dbname missing o s with hsome | heq
    · intro _
      exact hsome
    · rw [heq]
      exact ih
  | reset hst ih =>
    rename_i s
    intro hc
    rw [resetState_conn missing s ih] at hc
    simp at hc

/-- With the API key missing, every reachable state is `Error` with the
startup error message set. -/
theorem missing_key_invariant (st : AppState) (h : Reachable true st) :
    st.currentStep = AppStep.Error ∧
    st.globalError = some "Gemini API Key is not configured. Please set the process.env.API_KEY environment variable." := by
  induction h with
  | init clock =>
    constructor <;> simp [startupEffect, initState, addLog]
  | upload fileName content llmResp hst ih =>
    rw [handleFileUpload_missing]
    exact ih
  | genSql llmResp hst ih =>
    rw [handleGenerateSql_missing]
    exact ih
  | processDb o hst ih =>
    rw [handleProcessWithPGLite_missing]
    exact ih
  | reset hst ih =>
    rename_i s
    constructor
    · by_cases hdb : s.currentDbName.isSome <;> simp [resetState, addLog, hdb]
    · by_cases hdb : s.currentDbName.isSome <;>
        simp [resetState, addLog, hdb] <;> exact ih.2

/-- C1: with the required LLM credential missing, from every reachable
state each of the three pipeline triggers (file upload, schema
confirmation, SQL confirmation) leaves the pipeline in `Error` with a
non-empty error message: the startup check has already degraded the
pipeline and every trigger short-circuits. -/
theorem c1_missing_key_short_circuit (st : AppState) (h : Reachable true st)
    (fileName content : String) (llm1 llm2 : Option String) (o : ProcessOracle) :
    ((handleFileUpload true fileName content llm1 st).currentStep = AppStep.Error ∧
      ∃ m, (handleFileUpload true fileName content llm1 st).globalError = some m ∧
        m ≠ "") ∧
    ((handleGenerateSql true llm2 st).currentStep = AppStep.Error ∧
      ∃ m, (handleGenerateSql true llm2 st).globalError = some m ∧ m ≠ "") ∧
    ((handleProcessWithPGLite true o st).currentStep = AppStep.Error ∧
      ∃ m, (handleProcessWithPGLite true o st).globalError = some m ∧ m ≠ "") := by
  obtain ⟨h1, h2⟩ := missing_key_invariant st h
  rw [handleFileUpload_missing, handleGenerateSql_missing, handleProcessWithPGLite_missing]
  exact ⟨⟨h1, _, h2, by simp⟩, ⟨h1, _, h2, by simp⟩, ⟨h1, _, h2, by simp⟩⟩

theorem c1_missing_key_short_circuit_witness :
    ((handleFileUpload true "f.csv" "a,b" none
        (startupEffect true (initState []))).currentStep = AppStep.Error ∧
      ∃ m, (handleFileUpload true "f.csv" "a,b" none
        (startupEffect true (initState []))).globalError = some m ∧ m ≠ "") ∧
    ((handleGenerateSql true none
        (startupEffect true (initState []))).currentStep = AppStep.Error ∧
      ∃ m, (handleGenerateSql true none
        (startupEffect true (initState []))).globalError = some m ∧ m ≠ "") ∧
    ((handleProcessWithPGLite true ⟨true, true, fun _ t => .ok t, fun _ => true⟩
        (startupEffect true (initState []))).currentStep = AppStep.Error ∧
      ∃ m, (handleProcessWithPGLite true ⟨true, true, fun _ t => .ok t, fun _ => true⟩
        (startupEffect true (initState []))).globalError = some m ∧ m ≠ "") :=
  c1_missing_key_short_circuit (startupEffect true (initState [])) (Reachable.init [])
    "f.csv" "a,b" none none ⟨true, true, fun _ t => .ok t, fun _ => true⟩

/-- C9 counterexample: from the reachable, non-initial `Error` state
caused by the missing key, reset does not clear the current error — so
"clears all derived data (..., current error)" fails as stated. -/
theorem c9_reset_keeps_error_counterexample :
    (startupEffect true (initState [])).currentStep ≠ AppStep.Upload ∧
    (resetState true (startupEffect true (initState []))).globalError ≠ none := by
  constructor <;> decide

/-- C9 (amended): reset from any reachable non-initial state clears the
file, previews, parsed rows, schema analysis, generated SQL and session
name, sets the store status inactive, appends exactly one reset log entry
and otherwise leaves the log history unchanged, closes the store
connection exactly once when one is live and performs no close otherwise
(`closePGLite` is a no-op when already closed, so no double-close can
occur), and clears the current error exactly when the API key is present
(when the key is missing the error is preserved). -/
theorem c9_reset_frame (missing : Bool) (st : AppState) (h : Reachable missing st)
    (hstep : st.currentStep ≠ AppStep.Upload) :
    (resetState missing st).file = none ∧
    (resetState missing st).rawDataPreview = none ∧
    (resetState missing st).fullParsedData = none ∧
    (resetState missing st).schemaAnalysis = none ∧
    (resetState missing st).generatedCreateTableSql = none ∧
    (resetState missing st).dbDataPreview = none ∧
    (resetState missing st).currentDbName = none ∧
    (resetState missing st).pgliteStatus = PgStatus.inactive ∧
    (resetState missing st).globalError = (if missing then st.globalError else none) ∧
    (resetState missing st).currentStep
      = (if missing then AppStep.Error else AppStep.Upload) ∧
    (∃ e, (resetState missing st).etlLogs = st.etlLogs ++ [e] ∧
      e.message = "State reset. Ready for new file upload." ∧ e.type = LogType.info) ∧
    (resetState missing st).service.conn = none ∧
    (resetState missing st).trace = st.trace ++
      (match st.service.conn with
        | some c => [ConnEvent.closed c.dbName]
        | none => []) := by
  have hconn := conn_dbname_invariant missing st h
  by_cases hdb : st.currentDbName.isSome
  · cases hc : st.service.conn with
    | some c =>
      refine ⟨?_, ?_, ?_, ?_, ?_, ?_, ?_, ?_, ?_, ?_, ?_, ?_, ?_⟩ <;>
        simp [resetState, addLog, closePGLite, hdb, hc]
    | none =>
      refine ⟨?_, ?_, ?_, ?_, ?_, ?_, ?_, ?_, ?_, ?_, ?_, ?_, ?_⟩ <;>
        simp [resetState, addLog, closePGLite, hdb, hc]
  · have hcnone : st.service.conn = none := by
      cases hc : st.service.conn with
      | none => rfl
      | some c => exact absurd (hconn (by simp [hc])) hdb
    refine ⟨?_, ?_, ?_, ?_, ?_, ?_, ?_, ?_, ?_, ?_, ?_, ?_, ?_⟩ <;>
      simp [resetState, addLog, hdb, hcnone]

theorem c9_reset_frame_witness :
    (resetState true (startupEffect true (initState []))).service.conn = none ∧
    (resetState true (startupEffect true (initState []))).file = none ∧
    (resetState true (startupEffect true (initState []))).globalError
      = (if true then (startupEffect true (initState [])).globalError else none) :=
  ⟨(c9_reset_frame true (startupEffect true (initState [])) (Reachable.init [])
      (by decide)).2.2.2.2.2.2.2.2.2.2.2.1,
    (c9_reset_frame true (startupEffect true (initState [])) (Reachable.init [])
      (by decide)).1,
    (c9_reset_frame true (startupEffect true (initState [])) (Reachable.init [])
      (by decide)).2.2.2.2.2.2.2.2.1⟩

/-- C10 divergence at a concrete run: with the wall clock returning the
same millisecond (1000) for consecutive `Date.now()` reads, the reset
entry and the file-selected entry of one upload get the same id "1000" —
log entry ids are not unique, contradicting the claim (the log itself is
append-only; only the id uniqueness fails). -/
theorem c10_duplicate_log_ids :
    ((handleFileUpload false "a.csv" "x\n1" none
        (startupEffect false (initState [1000, 1000, 1000, 1000, 1000]))).etlLogs.map
      EtlLogEntry.id).take 2 = ["1000", "1000"] ∧
    ¬ List.Nodup ((handleFileUpload false "a.csv" "x\n1" none
        (startupEffect false (initState [1000, 1000, 1000, 1000, 1000]))).etlLogs.map
      EtlLogEntry.id) := by
  constructor <;> decide

end ETL
